import Mathlib

/-!
Shallow embedding of the multi-agent orchestration layer exercised by the
semantic-kernel tutorial samples in this repository, together with the
manager subclasses the samples themselves define
(`ChatCompletionGroupChatManager`, `CustomRoundRobinGroupChatManager`) and
the handoff graph built in `step4_handoff.py`.

The orchestration engine itself (`semantic_kernel.agents.orchestration.*`,
`OrchestrationResult`, the runtime) is a framework dependency whose code is
not part of this repository's sources; definitions for it are modelled from
the specification and marked `Modelled from the spec:` in their doc
comments.  Everything defined by the sample scripts is embedded from those
scripts directly.
-/

/-- Roles of chat messages (`semantic_kernel.contents.AuthorRole`). -/
inductive AuthorRole
  | system
  | user
  | assistant
  | tool
  deriving DecidableEq, Repr

/-- A chat message (`semantic_kernel.contents.ChatMessageContent`): a role, an
optional author name (`name` is `None` for plain user/system messages) and the
textual content. -/
structure ChatMessageContent where
  role : AuthorRole
  name : Option String := none
  content : String
  deriving DecidableEq, Repr

/-- A plain user message carrying a task, as produced by the engine's default
input conversion ("wrap as a single user Message"). -/
def userMessage (task : String) : ChatMessageContent :=
  { role := AuthorRole.user, content := task }

/-- A system message with the given content. -/
def systemMessage (text : String) : ChatMessageContent :=
  { role := AuthorRole.system, content := text }

/-- State of an `OrchestrationResult`, over an arbitrary value type `V`:
`Pending` until resolved, then exactly one of the three terminal states. -/
inductive RunState (V : Type)
  | Pending
  | Completed (value : V)
  | Cancelled
  | Failed (error : String)
  deriving DecidableEq, Repr

/-- Whether a `RunState` is terminal (anything but `Pending`). -/
def RunState.isTerminal {V : Type} : RunState V → Bool
  | RunState.Pending => false
  | _ => true

/-- The events that can be applied to an `OrchestrationResult`: the internal
completion path resolving it with a value or a failure, and a caller's
`cancel()`. -/
inductive ResultEvent (V : Type)
  | resolveCompleted (value : V)
  | resolveFailed (error : String)
  | cancel
  deriving DecidableEq, Repr

/-- Modelled from the spec: `OrchestrationResult` is "mutated exactly once (by
the orchestration's internal completion path) from Pending to a terminal
state; a `cancel()` call transitions Pending→Cancelled and must prevent any
later Completed/Failed transition (first-writer-wins, enforced via a
single-assignment synchronization primitive)", and `cancel()` is "idempotent;
no-op if already terminal".  The engine is not under this repository's
sources; only its callers are.  A terminal state therefore absorbs every
later event. -/
def applyResultEvent {V : Type} : RunState V → ResultEvent V → RunState V
  | RunState.Pending, ResultEvent.resolveCompleted v => RunState.Completed v
  | RunState.Pending, ResultEvent.resolveFailed e => RunState.Failed e
  | RunState.Pending, ResultEvent.cancel => RunState.Cancelled
  | s, _ => s

/-- The state of an `OrchestrationResult` after a sequence of events, starting
from `Pending` (its state at `invoke` time). -/
def runEvents {V : Type} (events : List (ResultEvent V)) : RunState V :=
  events.foldl applyResultEvent RunState.Pending

/-- Outcome of awaiting `OrchestrationResult.get()`. -/
inductive GetOutcome (V : Type)
  | value (v : V)
  | raiseCancelledError
  | raiseError (e : String)
  | raiseTimeoutError
  | stillWaiting
  deriving DecidableEq, Repr

/-- Modelled from the spec: `get()` "blocks/awaits; raises `TimeoutError`,
`CancelledError`, or the run's terminal error", returning the value on
completion. -/
def resultGet {V : Type} : RunState V → GetOutcome V
  | RunState.Pending => GetOutcome.stillWaiting
  | RunState.Completed v => GetOutcome.value v
  | RunState.Cancelled => GetOutcome.raiseCancelledError
  | RunState.Failed e => GetOutcome.raiseError e

/-- A terminal state absorbs any further event. -/
theorem applyResultEvent_terminal {V : Type} (s : RunState V) (e : ResultEvent V)
    (h : s.isTerminal = true) : applyResultEvent s e = s := by
  cases s with
  | Pending => simp [RunState.isTerminal] at h
  | Completed v => cases e <;> rfl
  | Cancelled => cases e <;> rfl
  | Failed err => cases e <;> rfl

/-- A terminal state absorbs any further event sequence. -/
theorem foldl_resultEvent_terminal {V : Type} (tail : List (ResultEvent V))
    (s : RunState V) (h : s.isTerminal = true) :
    tail.foldl applyResultEvent s = s := by
  induction tail with
  | nil => rfl
  | cons e es ih =>
      simp only [List.foldl_cons, applyResultEvent_terminal s e h]
      exact ih

/-- C1: an OrchestrationResult is resolved to a terminal state at most once
(events after the first terminal resolution leave the state unchanged), and a
`cancel()` issued while the state is Pending transitions it to Cancelled, so
that every subsequent `get()` raises CancelledError and no later Completed or
Failed transition can occur (first-writer-wins). -/
theorem orchestrationResult_first_writer_wins {V : Type}
    (es tail : List (ResultEvent V)) :
    (RunState.isTerminal (runEvents es) = true →
      runEvents (es ++ tail) = runEvents es) ∧
    (runEvents es = RunState.Pending →
      runEvents (es ++ ResultEvent.cancel :: tail) = RunState.Cancelled ∧
      resultGet (runEvents (es ++ ResultEvent.cancel :: tail)) =
        GetOutcome.raiseCancelledError) := by
  constructor
  · intro hterm
    simp only [runEvents, List.foldl_append]
    exact foldl_resultEvent_terminal tail _ hterm
  · intro hpend
    have hstep : runEvents (es ++ ResultEvent.cancel :: tail) = RunState.Cancelled := by
      simp only [runEvents, List.foldl_append, List.foldl_cons]
      rw [show es.foldl applyResultEvent RunState.Pending = runEvents es from rfl, hpend]
      exact foldl_resultEvent_terminal tail RunState.Cancelled rfl
    exact ⟨hstep, by rw [hstep]; rfl⟩

/-- Witness for C1 at concrete event sequences: cancelling a completed result
is a no-op, and a completion arriving after a cancel is discarded. -/
theorem orchestrationResult_first_writer_wins_witness :
    runEvents ([ResultEvent.resolveCompleted "ok"] ++ [ResultEvent.cancel]) =
      runEvents [ResultEvent.resolveCompleted "ok"] ∧
    (runEvents (([] : List (ResultEvent String)) ++
        ResultEvent.cancel :: [ResultEvent.resolveCompleted "late"]) =
      RunState.Cancelled ∧
     resultGet (runEvents (([] : List (ResultEvent String)) ++
        ResultEvent.cancel :: [ResultEvent.resolveCompleted "late"])) =
      GetOutcome.raiseCancelledError) :=
  ⟨(orchestrationResult_first_writer_wins
      [ResultEvent.resolveCompleted "ok"] [ResultEvent.cancel]).1 (by decide),
   (orchestrationResult_first_writer_wins
      ([] : List (ResultEvent String)) [ResultEvent.resolveCompleted "late"]).2 rfl⟩

/-- Modelled from the spec: a run, as seen by a waiter, that completes with
`value` at absolute time `resolveTime`.  "Timeout is a property of `get()`,
not of the underlying run — a timed-out `get()` does not cancel the run, only
the caller's wait." -/
structure TimedRun where
  resolveTime : Nat
  value : String
  deriving DecidableEq, Repr

/-- The `RunState` of a timed run as observed at time `t`. -/
def TimedRun.stateAt (r : TimedRun) (t : Nat) : RunState String :=
  if r.resolveTime ≤ t then RunState.Completed r.value else RunState.Pending

/-- Modelled from the spec: `get(timeout=t)` issued at time `start` waits until
`start + t`; it raises `TimeoutError` when the run is unresolved by then, and
returns the run itself unchanged in either case (the wait never mutates the
run). -/
def TimedRun.getWithTimeout (r : TimedRun) (start t : Nat) :
    GetOutcome String × TimedRun :=
  match r.stateAt (start + t) with
  | RunState.Pending => (GetOutcome.raiseTimeoutError, r)
  | s => (resultGet s, r)

/-- C7: `get(timeout=T)` raises TimeoutError when the run is unresolved after
the wait, the run itself is unchanged by the timed-out wait, and a later
`get()` on the same result returns the run's value once the run has
completed. -/
theorem resultGet_timeout_is_local (r : TimedRun) (start t start' t' : Nat)
    (h1 : start + t < r.resolveTime) (h2 : r.resolveTime ≤ start' + t') :
    r.getWithTimeout start t = (GetOutcome.raiseTimeoutError, r) ∧
    TimedRun.getWithTimeout ((r.getWithTimeout start t).2) start' t' =
      (GetOutcome.value r.value, r) := by
  have hpend : r.stateAt (start + t) = RunState.Pending := by
    simp [TimedRun.stateAt, Nat.not_le.mpr h1]
  have hdone : r.stateAt (start' + t') = RunState.Completed r.value := by
    simp [TimedRun.stateAt, h2]
  have hfst : r.getWithTimeout start t = (GetOutcome.raiseTimeoutError, r) := by
    simp [TimedRun.getWithTimeout, hpend]
  refine ⟨hfst, ?_⟩
  rw [hfst]
  simp [TimedRun.getWithTimeout, hdone, resultGet]

/-- Witness for C7: a run resolving at time 5 times out on a 2-tick wait and
still yields its value to a later 10-tick wait. -/
theorem resultGet_timeout_is_local_witness :
    (TimedRun.mk 5 "v").getWithTimeout 0 2 =
      (GetOutcome.raiseTimeoutError, TimedRun.mk 5 "v") ∧
    TimedRun.getWithTimeout (((TimedRun.mk 5 "v").getWithTimeout 0 2).2) 3 10 =
      (GetOutcome.value "v", TimedRun.mk 5 "v") :=
  resultGet_timeout_is_local (TimedRun.mk 5 "v") 0 2 3 10 (by decide) (by decide)

/-- An agent as the orchestration layer sees it: a unique name and its single
capability — given a conversation history, produce the content of a reply
(the spec's `produce_reply`; the engine never inspects how the reply is
produced). -/
structure Agent where
  name : String
  respond : List ChatMessageContent → String

/-- The reply message an agent produces for a given history: an assistant
message authored by the agent. -/
def agentReply (a : Agent) (hist : List ChatMessageContent) : ChatMessageContent :=
  { role := AuthorRole.assistant, name := some a.name, content := a.respond hist }

/-- Modelled from the spec: Concurrent orchestration fan-out/fan-in.  "All
members receive an identical copy of the task in parallel"; replies are
collected in completion order ("first-arrived ordering is acceptable"), given
here by `completion`, the member list in the order the agents happened to
finish. -/
def concurrentInvoke (completion : List Agent) (task : String) :
    List ChatMessageContent :=
  completion.map fun a => agentReply a [userMessage task]

/-- C2: for every completion order (a permutation of the member list) the
Concurrent result is, up to permutation, the per-member reply list — exactly
one reply per member — while the relative order of the replies is not
guaranteed to match member-list order (a completion order exists whose result
order differs). -/
theorem concurrent_one_reply_per_member (members completion : List Agent)
    (task : String) (hperm : completion.Perm members) :
    (concurrentInvoke completion task).Perm (concurrentInvoke members task) ∧
    ((concurrentInvoke completion task).map ChatMessageContent.name).Perm
      (members.map fun a => some a.name) ∧
    ∃ ms cs tk, List.Perm cs ms ∧
      (concurrentInvoke cs tk).map ChatMessageContent.name ≠
        ms.map fun a => some a.name := by
  refine ⟨hperm.map _, ?_, ?_⟩
  · have h1 : (concurrentInvoke completion task).map ChatMessageContent.name
        = completion.map fun a => some a.name := by
      simp [concurrentInvoke, agentReply]
    rw [h1]
    exact hperm.map _
  · refine ⟨[Agent.mk "A" fun _ => "a", Agent.mk "B" fun _ => "b"],
      [Agent.mk "B" fun _ => "b", Agent.mk "A" fun _ => "a"], "t",
      List.Perm.swap (Agent.mk "A" fun _ => "a") (Agent.mk "B" fun _ => "b") [], ?_⟩
    simp [concurrentInvoke, agentReply]

/-- The PhysicsExpert agent of `step1_concurrent.py`, its reply mocked. -/
def physicsAgent : Agent := ⟨"PhysicsExpert", fun _ => "physics answer"⟩

/-- The ChemistryExpert agent of `step1_concurrent.py`, its reply mocked. -/
def chemistryAgent : Agent := ⟨"ChemistryExpert", fun _ => "chemistry answer"⟩

/-- Witness for C2: the two-member orchestration of `step1_concurrent.py`, the
chemistry agent finishing first. -/
theorem concurrent_one_reply_per_member_witness :
    (concurrentInvoke [chemistryAgent, physicsAgent] "What is temperature?").Perm
      (concurrentInvoke [physicsAgent, chemistryAgent] "What is temperature?") ∧
    ((concurrentInvoke [chemistryAgent, physicsAgent] "What is temperature?").map
        ChatMessageContent.name).Perm
      ([physicsAgent, chemistryAgent].map fun a => some a.name) ∧
    ∃ ms cs tk, List.Perm cs ms ∧
      (concurrentInvoke cs tk).map ChatMessageContent.name ≠
        ms.map fun a => some a.name :=
  concurrent_one_reply_per_member [physicsAgent, chemistryAgent]
    [chemistryAgent, physicsAgent] "What is temperature?"
    (List.Perm.swap physicsAgent chemistryAgent [])

/-- One sequential turn, modelled from the spec: the member receives the whole
running ChatHistory ("not just the last message") and its reply is appended to
that history. -/
def seqStep (hist : List ChatMessageContent) (a : Agent) :
    List ChatMessageContent :=
  hist ++ [agentReply a hist]

/-- Modelled from the spec: the ChatHistory handed to member `i` (0-based) of a
Sequential orchestration — the task message followed by the replies of members
`0..i-1` in order. -/
def seqInput (members : List Agent) (task : String) (i : Nat) :
    List ChatMessageContent :=
  (members.take i).foldl seqStep [userMessage task]

/-- Modelled from the spec: Sequential orchestration runs the members in list
order over the shared history seeded by the task. -/
def sequentialRun (members : List Agent) (task : String) :
    List ChatMessageContent :=
  members.foldl seqStep [userMessage task]

/-- The run's final value: the last message of the final history (the last
member's reply). -/
def sequentialFinal (members : List Agent) (task : String) :
    Option ChatMessageContent :=
  (sequentialRun members task).getLast?

/-- Events observable in a sequential run: member `i` is dispatched its input,
and member `i` replies. -/
inductive SeqEvent
  | dispatch (i : Nat)
  | reply (i : Nat)
  deriving DecidableEq, Repr

/-- Modelled from the spec: the order of events in a sequential run over `n`
members — each member is dispatched and then replies before the next member
is dispatched. -/
def seqTrace (n : Nat) : List SeqEvent :=
  (List.range n).flatMap fun i => [SeqEvent.dispatch i, SeqEvent.reply i]

/-- Unfolding the trace at its last member. -/
theorem seqTrace_succ (n : Nat) :
    seqTrace (n + 1) = seqTrace n ++ [SeqEvent.dispatch n, SeqEvent.reply n] := by
  simp [seqTrace, List.range_succ]

/-- Membership in a sequential trace. -/
theorem mem_seqTrace (e : SeqEvent) (m : Nat) :
    e ∈ seqTrace m ↔ ∃ j, j < m ∧ (e = SeqEvent.dispatch j ∨ e = SeqEvent.reply j) := by
  simp [seqTrace, List.mem_flatMap, List.mem_range]

/-- A shorter trace is an initial segment of a longer one. -/
theorem seqTrace_initial {m n : Nat} (h : m ≤ n) :
    ∃ tail, seqTrace n = seqTrace m ++ tail := by
  induction n with
  | zero =>
      refine ⟨[], ?_⟩
      have : m = 0 := Nat.le_zero.mp h
      simp [this]
  | succ n ih =>
      rcases Nat.lt_or_ge m (n + 1) with hlt | hge
      · obtain ⟨tail, htail⟩ := ih (Nat.lt_succ_iff.mp hlt)
        exact ⟨tail ++ [SeqEvent.dispatch n, SeqEvent.reply n], by
          rw [seqTrace_succ, htail, List.append_assoc]⟩
      · have : m = n + 1 := Nat.le_antisymm h hge
        exact ⟨[], by simp [this]⟩

/-- The history handed to member `i + 1` is the history handed to member `i`
extended by member `i`'s reply to it. -/
theorem seqInput_succ (members : List Agent) (task : String) (i : Nat)
    (h : i < members.length) :
    seqInput members task (i + 1) =
      seqInput members task i ++
        [agentReply (members.get ⟨i, h⟩) (seqInput members task i)] := by
  simp only [seqInput, List.take_succ, List.getElem?_eq_getElem h,
    Option.toList_some, List.foldl_append, List.foldl_cons, List.foldl_nil]
  rfl

/-- C3: in a Sequential orchestration the task seeds the first member's input,
each member's reply becomes part of the next member's input together with the
whole running ChatHistory, member `i` replies before member `i + 1` is
dispatched, and the run's final value is the last member's reply. -/
theorem sequential_pipeline (members : List Agent) (task : String) (i : Nat) :
    seqInput members task 0 = [userMessage task] ∧
    (∀ h : i < members.length,
      seqInput members task (i + 1) =
        seqInput members task i ++
          [agentReply (members.get ⟨i, h⟩) (seqInput members task i)]) ∧
    (i + 1 ≤ members.length →
      ∃ tail, seqTrace members.length = seqTrace (i + 1) ++ tail ∧
        SeqEvent.reply i ∈ seqTrace (i + 1) ∧
        SeqEvent.dispatch (i + 1) ∉ seqTrace (i + 1)) ∧
    (∀ h : members ≠ [],
      sequentialFinal members task =
        some (agentReply (members.getLast h)
          (seqInput members task (members.length - 1)))) := by
  refine ⟨rfl, fun h => seqInput_succ members task i h, ?_, ?_⟩
  · intro hle
    obtain ⟨tail, htail⟩ := seqTrace_initial hle
    refine ⟨tail, htail, ?_, ?_⟩
    · rw [mem_seqTrace]
      exact ⟨i, Nat.lt_succ_self i, Or.inr rfl⟩
    · rw [mem_seqTrace]
      rintro ⟨j, hj, hcase | hcase⟩
      · cases hcase
        exact absurd hj (Nat.lt_irrefl _)
      · cases hcase
  · intro h
    have hpos : 0 < members.length := List.length_pos.mpr h
    have hlen : members.length - 1 + 1 = members.length := Nat.succ_pred_eq_of_pos hpos
    have hidx : members.length - 1 < members.length := by omega
    have hrun : sequentialRun members task = seqInput members task members.length := by
      simp [sequentialRun, seqInput, List.take_length]
    have hstep := seqInput_succ members task (members.length - 1) hidx
    rw [hlen] at hstep
    have hlast : members.getLast h = members.get ⟨members.length - 1, hidx⟩ := by
      simp [List.getLast_eq_getElem]
    rw [sequentialFinal, hrun, hstep, List.getLast?_concat, hlast]

/-- Mock agent A of the spec's sequential test: always replies "x". -/
def mockAgentA : Agent := Agent.mk "A" fun _ => "x"

/-- Mock agent B: appends "-y" to the last message of its input history. -/
def mockAgentB : Agent :=
  Agent.mk "B" fun hist =>
    (match hist.getLast? with
     | some m => m.content
     | none => "") ++ "-y"

/-- Mock agent C: appends "-z" to the last message of its input history. -/
def mockAgentC : Agent :=
  Agent.mk "C" fun hist =>
    (match hist.getLast? with
     | some m => m.content
     | none => "") ++ "-z"

/-- Witness for C3: the mocked pipeline A→"x", B appends "-y", C appends "-z"
over a three-member Sequential orchestration has final value "x-y-z", and the
final value is the last member's reply. -/
theorem sequential_pipeline_witness :
    sequentialFinal [mockAgentA, mockAgentB, mockAgentC] "task" =
      some (agentReply
        (List.getLast [mockAgentA, mockAgentB, mockAgentC] (List.cons_ne_nil _ _))
        (seqInput [mockAgentA, mockAgentB, mockAgentC] "task"
          ([mockAgentA, mockAgentB, mockAgentC].length - 1))) ∧
    (sequentialFinal [mockAgentA, mockAgentB, mockAgentC] "task").map
      ChatMessageContent.content = some "x-y-z" :=
  ⟨(sequential_pipeline [mockAgentA, mockAgentB, mockAgentC] "task" 0).2.2.2
      (List.cons_ne_nil _ _), rfl⟩

/-- Modelled from the spec: the round-robin GroupChatManager loop (framework
code not under this repository's sources) — while `roundCount < maxRounds` it
selects the member at position `roundCount % |members|` ("cycles members in
list order, ignoring content"), dispatches that turn and increments the round
count; it terminates as soon as the round count reaches `maxRounds`
("terminating at max_rounds").  The value is the list of agent names in turn
order. -/
def roundRobinRun (members : List String) (maxRounds roundCount : Nat) :
    List String :=
  if h : roundCount < maxRounds then
    members.getD (roundCount % members.length) "" ::
      roundRobinRun members maxRounds (roundCount + 1)
  else []
termination_by maxRounds - roundCount
decreasing_by omega

/-- The round-robin loop enumerates rounds `roundCount, ..., maxRounds - 1`. -/
theorem roundRobinRun_eq_map (members : List String) (maxRounds : Nat) :
    ∀ fuel roundCount, maxRounds - roundCount = fuel →
      roundRobinRun members maxRounds roundCount =
        (List.range' roundCount (maxRounds - roundCount)).map
          (fun k => members.getD (k % members.length) "") := by
  intro fuel
  induction fuel with
  | zero =>
      intro rc h0
      rw [roundRobinRun]
      have hge : ¬ rc < maxRounds := by omega
      simp [hge, h0]
  | succ fuel ih =>
      intro rc hf
      rw [roundRobinRun]
      have hlt : rc < maxRounds := by omega
      rw [dif_pos hlt, ih (rc + 1) (by omega)]
      have hsplit : maxRounds - rc = (maxRounds - (rc + 1)) + 1 := by omega
      rw [hsplit, List.range'_succ]
      rfl

/-- C4: a round-robin GroupChat run with `max_rounds = maxRounds` performs
exactly `maxRounds` turns (so never more), the turn of round `k` (0-based) is
taken by the member at position `k % |members|` independent of message
content — in particular round 0 is taken by `members[0]` — and the loop
terminates (dispatches nothing) once the round count has reached
`maxRounds`. -/
theorem groupChat_roundRobin_bounded (members : List String) (maxRounds k : Nat) :
    (roundRobinRun members maxRounds 0).length = maxRounds ∧
    (k < maxRounds →
      (roundRobinRun members maxRounds 0)[k]? =
        some (members.getD (k % members.length) "")) ∧
    (members ≠ [] → 0 < maxRounds →
      (roundRobinRun members maxRounds 0).head? = some (members.getD 0 "")) ∧
    roundRobinRun members maxRounds maxRounds = [] := by
  have hmap := roundRobinRun_eq_map members maxRounds (maxRounds - 0) 0 rfl
  simp only [Nat.sub_zero] at hmap
  refine ⟨?_, ?_, ?_, ?_⟩
  · rw [hmap]
    simp
  · intro hk
    rw [hmap, List.getElem?_map, List.getElem?_range' 0 1 hk]
    simp
  · intro hne hpos
    have h0 : (0 : Nat) < maxRounds := hpos
    rw [hmap]
    cases hmr : maxRounds with
    | zero => omega
    | succ n =>
        rw [List.range'_succ]
        simp [Nat.zero_mod]
  · rw [roundRobinRun]
    simp

/-- Witness for C4: the `step3_group_chat.py` configuration — members
`[Writer, Reviewer]`, `max_rounds = 5` — yields exactly the five turns
Writer, Reviewer, Writer, Reviewer, Writer. -/
theorem groupChat_roundRobin_bounded_witness :
    (roundRobinRun ["Writer", "Reviewer"] 5 0).length = 5 ∧
    (roundRobinRun ["Writer", "Reviewer"] 5 0)[2]? = some "Writer" ∧
    (roundRobinRun ["Writer", "Reviewer"] 5 0).head? = some "Writer" ∧
    roundRobinRun ["Writer", "Reviewer"] 5 5 = [] := by
  have h := groupChat_roundRobin_bounded ["Writer", "Reviewer"] 5 2
  exact ⟨h.1, h.2.1 (by decide), h.2.2.1 (by decide) (by decide), h.2.2.2⟩

/-- The spec's taxonomy of run-fatal orchestration errors that the samples can
trigger. -/
inductive OrchestrationError
  | invalidHandoff (source target : String)
  | unknownParticipant (name : String)
  | outputTransform (message : String)
  | emptyHistory
  deriving DecidableEq, Repr

/-- The handoff graph (the spec's "mapping from source agent name to a set of
(target agent name, transfer condition description)"), kept as the list of
directed edges in the order the builder added them. -/
structure OrchestrationHandoffs where
  edges : List (String × String × String)
  deriving DecidableEq, Repr

/-- Modelled from the spec: the `OrchestrationHandoffs.add` builder used by
`step4_handoff.py` — record one edge from `source` to `target` with its
transfer-condition description. -/
def OrchestrationHandoffs.add (h : OrchestrationHandoffs)
    (source target description : String) : OrchestrationHandoffs :=
  { edges := h.edges ++ [(source, target, description)] }

/-- Modelled from the spec: the `OrchestrationHandoffs.add_many` builder used
by `step4_handoff.py` — record one edge from `source` to each listed target. -/
def OrchestrationHandoffs.addMany (h : OrchestrationHandoffs) (source : String)
    (targets : List (String × String)) : OrchestrationHandoffs :=
  { edges := h.edges ++ targets.map fun td => (source, td.1, td.2) }

/-- Whether the graph permits the currently active `source` to transfer to
`target` (an outgoing edge of `source`). -/
def OrchestrationHandoffs.hasEdge (h : OrchestrationHandoffs)
    (source target : String) : Bool :=
  h.edges.any fun e => e.1 == source && e.2.1 == target

/-- The directives an active agent can end its turn with in a Handoff
orchestration. -/
inductive HandoffDirective
  | replyOnly (content : String)
  | transferTo (target : String)
  | complete (summary : String)
  deriving DecidableEq, Repr

/-- Outcome of one handoff turn: the run continues with a (possibly new)
active agent that receives the next dispatched turn, finishes with a summary,
or fails. -/
inductive HandoffOutcome
  | next (activeAgent dispatchTo : String)
  | finished (summary : String)
  | failed (e : OrchestrationError)
  deriving DecidableEq, Repr

/-- Modelled from the spec: how one turn of a Handoff orchestration ends —
the active agent either "(a) replies normally, ending its turn but remaining
active, (b) issues a transfer directive naming a reachable target (must be an
outgoing edge of the current agent; otherwise fails with InvalidHandoffError),
which makes the target active and yields the next turn to it, or (c) issues a
completion directive with a task summary, which ends the run".  The engine is
framework code not under this repository's sources. -/
def handoffStep (graph : OrchestrationHandoffs) (active : String) :
    HandoffDirective → HandoffOutcome
  | HandoffDirective.replyOnly _ => HandoffOutcome.next active active
  | HandoffDirective.transferTo target =>
      if graph.hasEdge active target then HandoffOutcome.next target target
      else HandoffOutcome.failed (OrchestrationError.invalidHandoff active target)
  | HandoffDirective.complete summary => HandoffOutcome.finished summary

/-- The handoff graph built by `get_agents` in `step4_handoff.py`: the triage
agent may transfer to each specialist, each specialist may transfer back to
the triage agent. -/
def step4Handoffs : OrchestrationHandoffs :=
  ((((OrchestrationHandoffs.mk []).addMany "TriageAgent"
      [("RefundAgent", "如果問題與退款相關，轉移到此代理程式"),
       ("OrderStatusAgent", "如果問題與訂單狀態相關，轉移到此代理程式"),
       ("OrderReturnAgent", "如果問題與訂單退貨相關，轉移到此代理程式")]).add
      "RefundAgent" "TriageAgent" "如果問題與退款無關，轉移到此代理程式").add
      "OrderStatusAgent" "TriageAgent" "如果問題與訂單狀態無關，轉移到此代理程式").add
      "OrderReturnAgent" "TriageAgent" "如果問題與訂單退貨無關，轉移到此代理程式"

/-- C5: a transfer directive naming a target that is not an outgoing edge of
the active agent fails the turn with InvalidHandoffError, and a transfer to a
valid outgoing edge makes the target the active agent and dispatches the next
turn to that target. -/
theorem handoff_transfer_validated (graph : OrchestrationHandoffs)
    (active target : String) :
    (graph.hasEdge active target = false →
      handoffStep graph active (HandoffDirective.transferTo target) =
        HandoffOutcome.failed (OrchestrationError.invalidHandoff active target)) ∧
    (graph.hasEdge active target = true →
      handoffStep graph active (HandoffDirective.transferTo target) =
        HandoffOutcome.next target target) := by
  constructor
  · intro hmiss
    simp [handoffStep, hmiss]
  · intro hhit
    simp [handoffStep, hhit]

/-- Witness for C5 on the `step4_handoff.py` graph: RefundAgent has no edge to
OrderStatusAgent, so that transfer fails; TriageAgent has an edge to
RefundAgent, so that transfer activates RefundAgent and dispatches to it. -/
theorem handoff_transfer_validated_witness :
    handoffStep step4Handoffs "RefundAgent"
      (HandoffDirective.transferTo "OrderStatusAgent") =
      HandoffOutcome.failed
        (OrchestrationError.invalidHandoff "RefundAgent" "OrderStatusAgent") ∧
    handoffStep step4Handoffs "TriageAgent"
      (HandoffDirective.transferTo "RefundAgent") =
      HandoffOutcome.next "RefundAgent" "RefundAgent" :=
  ⟨(handoff_transfer_validated step4Handoffs "RefundAgent" "OrderStatusAgent").1
      (by decide),
   (handoff_transfer_validated step4Handoffs "TriageAgent" "RefundAgent").2
      (by decide)⟩

/-- A structured decision carrying a string result and the reason for it
(`semantic_kernel.agents.orchestration.group_chat.StringResult`). -/
structure StringResult where
  result : String
  reason : String
  deriving DecidableEq, Repr

/-- A structured boolean decision with a reason
(`semantic_kernel.agents.orchestration.group_chat.BooleanResult`). -/
structure BooleanResult where
  result : Bool
  reason : String
  deriving DecidableEq, Repr

/-- A structured message decision with a reason
(`semantic_kernel.agents.orchestration.group_chat.MessageResult`). -/
structure MessageResult where
  result : ChatMessageContent
  reason : String
  deriving DecidableEq, Repr

/-- `ChatCompletionGroupChatManager.select_next_agent`
(`step3b_group_chat_with_chat_completion_manager.py`): insert the rendered
selection system prompt at position 0 of the chat history, append the user
request "Now select the next participant to speak.", query the service — the
parsed `StringResult` of the service response is abstracted as `response` —
and return it when its `result` is a key of `participant_descriptions`,
otherwise raise `RuntimeError("Unknown participant selected: ...")` (the
spec's UnknownParticipantError).  Returns the mutated history together with
the outcome. -/
def selectNextAgent (participantDescriptions : List (String × String))
    (chatHistory : List ChatMessageContent) (selectionSystemText : String)
    (response : StringResult) :
    List ChatMessageContent × Except OrchestrationError StringResult :=
  let mutated := systemMessage selectionSystemText :: chatHistory ++
    [userMessage "Now select the next participant to speak."]
  if participantDescriptions.any fun p => p.1 == response.result then
    (mutated, Except.ok response)
  else
    (mutated, Except.error (OrchestrationError.unknownParticipant response.result))

/-- What the group chat does with a selection outcome.  Modelled from the
spec: "all internal actor exceptions must be caught at the actor boundary and
converted into a Result failure" — a selection error resolves the run as
Failed, a returned name receives the next turn. -/
inductive TurnOutcome
  | dispatchTo (agentName : String)
  | failRun (e : OrchestrationError)
  deriving DecidableEq, Repr

/-- Modelled from the spec: the group chat dispatches the next turn to the
selected participant, and converts a selection error into a failed run. -/
def applySelection : Except OrchestrationError StringResult → TurnOutcome
  | Except.ok r => TurnOutcome.dispatchTo r.result
  | Except.error e => TurnOutcome.failRun e

/-- C6: when `select_next_agent` produces a name absent from the participant
set the run raises UnknownParticipantError and fails rather than silently
dispatching to a default participant; when it produces a participant name,
that agent takes the next turn. -/
theorem groupChat_unknown_participant_fails
    (participantDescriptions : List (String × String))
    (chatHistory : List ChatMessageContent) (selectionSystemText : String)
    (response : StringResult) :
    ((participantDescriptions.any fun p => p.1 == response.result) = false →
      (selectNextAgent participantDescriptions chatHistory selectionSystemText
        response).2 =
        Except.error (OrchestrationError.unknownParticipant response.result) ∧
      applySelection (selectNextAgent participantDescriptions chatHistory
        selectionSystemText response).2 =
        TurnOutcome.failRun (OrchestrationError.unknownParticipant response.result) ∧
      ∀ name, applySelection (selectNextAgent participantDescriptions chatHistory
        selectionSystemText response).2 ≠ TurnOutcome.dispatchTo name) ∧
    ((participantDescriptions.any fun p => p.1 == response.result) = true →
      (selectNextAgent participantDescriptions chatHistory selectionSystemText
        response).2 = Except.ok response ∧
      applySelection (selectNextAgent participantDescriptions chatHistory
        selectionSystemText response).2 = TurnOutcome.dispatchTo response.result) := by
  constructor
  · intro hmiss
    have hsel : (selectNextAgent participantDescriptions chatHistory
        selectionSystemText response).2 =
        Except.error (OrchestrationError.unknownParticipant response.result) := by
      simp [selectNextAgent, hmiss]
    refine ⟨hsel, ?_, ?_⟩
    · rw [hsel]; rfl
    · intro name
      rw [hsel]
      simp [applySelection]
  · intro hhit
    have hsel : (selectNextAgent participantDescriptions chatHistory
        selectionSystemText response).2 = Except.ok response := by
      simp [selectNextAgent, hhit]
    exact ⟨hsel, by rw [hsel]; rfl⟩

/-- Witness for C6 on the `step3b` participant set: selecting "Economist"
(absent) fails the run with UnknownParticipantError; selecting "Farmer"
(present) dispatches the next turn to Farmer. -/
theorem groupChat_unknown_participant_fails_witness :
    (selectNextAgent [("Farmer", "來自東南亞的農村農民。"),
        ("Developer", "來自美國的都市軟體開發者。")] [] "sel"
        (StringResult.mk "Economist" "r")).2 =
      Except.error (OrchestrationError.unknownParticipant "Economist") ∧
    applySelection (selectNextAgent [("Farmer", "來自東南亞的農村農民。"),
        ("Developer", "來自美國的都市軟體開發者。")] [] "sel"
        (StringResult.mk "Farmer" "r")).2 = TurnOutcome.dispatchTo "Farmer" :=
  ⟨((groupChat_unknown_participant_fails
      [("Farmer", "來自東南亞的農村農民。"), ("Developer", "來自美國的都市軟體開發者。")]
      [] "sel" (StringResult.mk "Economist" "r")).1 (by decide)).1,
   ((groupChat_unknown_participant_fails
      [("Farmer", "來自東南亞的農村農民。"), ("Developer", "來自美國的都市軟體開發者。")]
      [] "sel" (StringResult.mk "Farmer" "r")).2 (by decide)).2⟩

/-- Modelled from the spec: resolving a Concurrent orchestration configured
with an `output_transform` (as in `step1a_concurrent_structured_outputs.py`):
the collected per-agent replies are reduced by the transform into one
structured value; "if transformation fails, the run fails with
OutputTransformError, not a partial result". -/
def concurrentResolve (completion : List Agent) (task : String)
    (outputTransform : List ChatMessageContent → Except String String) :
    RunState String :=
  match outputTransform (concurrentInvoke completion task) with
  | Except.ok v => RunState.Completed v
  | Except.error e => RunState.Failed ("OutputTransformError: " ++ e)

/-- C8: when the output transform fails on the collected replies, the run
resolves as Failed with OutputTransformError and `get()` never returns a
(partial) value; when the transform succeeds, `get()` returns the single
transformed value. -/
theorem concurrent_output_transform_all_or_nothing (completion : List Agent)
    (task : String)
    (outputTransform : List ChatMessageContent → Except String String) :
    (∀ e, outputTransform (concurrentInvoke completion task) = Except.error e →
      concurrentResolve completion task outputTransform =
        RunState.Failed ("OutputTransformError: " ++ e) ∧
      ∀ v, resultGet (concurrentResolve completion task outputTransform) ≠
        GetOutcome.value v) ∧
    (∀ v, outputTransform (concurrentInvoke completion task) = Except.ok v →
      concurrentResolve completion task outputTransform = RunState.Completed v ∧
      resultGet (concurrentResolve completion task outputTransform) =
        GetOutcome.value v) := by
  constructor
  · intro e he
    have hres : concurrentResolve completion task outputTransform =
        RunState.Failed ("OutputTransformError: " ++ e) := by
      simp [concurrentResolve, he]
    refine ⟨hres, fun v => ?_⟩
    rw [hres]
    simp [resultGet]
  · intro v hv
    have hres : concurrentResolve completion task outputTransform =
        RunState.Completed v := by
      simp [concurrentResolve, hv]
    exact ⟨hres, by rw [hres]; rfl⟩

/-- Witness for C8: with the two mocked `step1_concurrent.py` agents, a
transform that rejects its input fails the run and never yields a value, and
a transform that validates to "analysis" completes with exactly that value. -/
theorem concurrent_output_transform_all_or_nothing_witness :
    (concurrentResolve [physicsAgent, chemistryAgent] "t"
        (fun _ => Except.error "schema validation failed") =
      RunState.Failed ("OutputTransformError: " ++ "schema validation failed") ∧
     ∀ v, resultGet (concurrentResolve [physicsAgent, chemistryAgent] "t"
        (fun _ => Except.error "schema validation failed")) ≠
        GetOutcome.value v) ∧
    (concurrentResolve [physicsAgent, chemistryAgent] "t"
        (fun _ => Except.ok "analysis") = RunState.Completed "analysis" ∧
     resultGet (concurrentResolve [physicsAgent, chemistryAgent] "t"
        (fun _ => Except.ok "analysis")) = GetOutcome.value "analysis") :=
  ⟨(concurrent_output_transform_all_or_nothing [physicsAgent, chemistryAgent] "t"
      (fun _ => Except.error "schema validation failed")).1
      "schema validation failed" rfl,
   (concurrent_output_transform_all_or_nothing [physicsAgent, chemistryAgent] "t"
      (fun _ => Except.ok "analysis")).2 "analysis" rfl⟩

/-- Modelled from the spec: the inherited GroupChatManager round/termination
state "{round_count, max_rounds}" carried by `ChatCompletionGroupChatManager`;
the base class is framework code not under this repository's sources. -/
structure GroupChatManagerState where
  currentRound : Nat
  maxRounds : Option Nat
  deriving DecidableEq, Repr

/-- Modelled from the spec: the inherited `should_terminate` — with
`max_rounds` set it signals termination exactly when the round count has
reached it ("if max_rounds is also set, whichever condition triggers first
wins"); without it, never. -/
def baseShouldTerminate (m : GroupChatManagerState) : BooleanResult :=
  match m.maxRounds with
  | some n => BooleanResult.mk (decide (n ≤ m.currentRound)) "Maximum rounds check."
  | none => BooleanResult.mk false "No maximum rounds set."

/-- `ChatCompletionGroupChatManager.should_terminate` (`step3b...py`): consult
`super().should_terminate` first and return its decision unchanged — without
touching the history — when it already signals termination; otherwise insert
the rendered termination system prompt at position 0 of the history, append
the user message "Determine if the discussion should end.", and query the
service, whose parsed `BooleanResult` is abstracted as `response`.  Returns
the (possibly mutated) history together with the decision. -/
def shouldTerminate (m : GroupChatManagerState)
    (chatHistory : List ChatMessageContent) (terminationSystemText : String)
    (response : BooleanResult) : List ChatMessageContent × BooleanResult :=
  let base := baseShouldTerminate m
  if base.result then (chatHistory, base)
  else
    (systemMessage terminationSystemText :: chatHistory ++
      [userMessage "Determine if the discussion should end."], response)

/-- `ChatCompletionGroupChatManager.filter_results` (`step3b...py`): raise
`RuntimeError("No messages in the chat history.")` on an empty history (the
spec's EmptyHistoryError); otherwise insert the rendered result-filter system
prompt at position 0, append the user message "Please summarize the
discussion.", query the service — its parsed `StringResult` abstracted as
`response` — and wrap the result as an assistant-authored `MessageResult`. -/
def filterResults (chatHistory : List ChatMessageContent)
    (filterSystemText : String) (response : StringResult) :
    Except OrchestrationError (List ChatMessageContent × MessageResult) :=
  if chatHistory.isEmpty then Except.error OrchestrationError.emptyHistory
  else
    Except.ok
      (systemMessage filterSystemText :: chatHistory ++
        [userMessage "Please summarize the discussion."],
       MessageResult.mk
         (ChatMessageContent.mk AuthorRole.assistant none response.result)
         response.reason)

/-- Counterexample to C9 as stated: when the inherited max-rounds check has
already triggered (here `current_round = 10` with `max_rounds = 10`),
`should_terminate` returns early and leaves the chat history unchanged — that
decision evaluation does not grow the history by two messages. -/
theorem manager_decision_mutations_counterexample :
    (shouldTerminate (GroupChatManagerState.mk 10 (some 10))
        [userMessage "請開始討論。"] "term" (BooleanResult.mk false "r")).1 =
      [userMessage "請開始討論。"] ∧
    ¬ ((shouldTerminate (GroupChatManagerState.mk 10 (some 10))
        [userMessage "請開始討論。"] "term" (BooleanResult.mk false "r")).1.length =
      ([userMessage "請開始討論。"] : List ChatMessageContent).length + 2) := by
  exact ⟨rfl, by decide⟩

/-- C9 (amended): each decision-point call of `ChatCompletionGroupChatManager`
that reaches its chat-completion query mutates the history it receives,
inserting a system prompt at position 0 and appending a user message at the
end — growing it by exactly two messages — for `should_terminate` (when the
inherited max-rounds check has not already triggered; on early return the
history is unchanged), for `select_next_agent` (always), and for
`filter_results` (whenever the history is non-empty; an empty history raises
instead). -/
theorem manager_decision_mutations (m : GroupChatManagerState)
    (chatHistory : List ChatMessageContent)
    (participantDescriptions : List (String × String))
    (sysA sysB sysC : String) (respB : BooleanResult) (respS respF : StringResult) :
    ((baseShouldTerminate m).result = false →
      (shouldTerminate m chatHistory sysA respB).1 =
        systemMessage sysA :: chatHistory ++
          [userMessage "Determine if the discussion should end."] ∧
      (shouldTerminate m chatHistory sysA respB).1.length =
        chatHistory.length + 2) ∧
    ((baseShouldTerminate m).result = true →
      (shouldTerminate m chatHistory sysA respB).1 = chatHistory) ∧
    ((selectNextAgent participantDescriptions chatHistory sysB respS).1 =
        systemMessage sysB :: chatHistory ++
          [userMessage "Now select the next participant to speak."] ∧
     (selectNextAgent participantDescriptions chatHistory sysB respS).1.length =
        chatHistory.length + 2) ∧
    (chatHistory ≠ [] →
      filterResults chatHistory sysC respF =
        Except.ok (systemMessage sysC :: chatHistory ++
            [userMessage "Please summarize the discussion."],
          MessageResult.mk
            (ChatMessageContent.mk AuthorRole.assistant none respF.result)
            respF.reason) ∧
      (systemMessage sysC :: chatHistory ++
        [userMessage "Please summarize the discussion."]).length =
        chatHistory.length + 2) := by
  refine ⟨?_, ?_, ?_, ?_⟩
  · intro hbase
    constructor
    · simp [shouldTerminate, hbase]
    · simp [shouldTerminate, hbase]
  · intro hbase
    simp [shouldTerminate, hbase]
  · have hfst : (selectNextAgent participantDescriptions chatHistory sysB respS).1 =
        systemMessage sysB :: chatHistory ++
          [userMessage "Now select the next participant to speak."] := by
      simp only [selectNextAgent]
      split <;> rfl
    exact ⟨hfst, by rw [hfst]; simp⟩
  · intro hne
    constructor
    · simp [filterResults, List.isEmpty_iff, hne]
    · simp

/-- Witness for C9 (amended) at a concrete state: one round into a ten-round
chat, each of the three decision points extends a one-message history to three
messages in the stated shape, and an exhausted round budget leaves it
untouched. -/
theorem manager_decision_mutations_witness :
    ((shouldTerminate (GroupChatManagerState.mk 1 (some 10))
        [userMessage "請開始討論。"] "term" (BooleanResult.mk false "r")).1 =
      systemMessage "term" :: [userMessage "請開始討論。"] ++
        [userMessage "Determine if the discussion should end."] ∧
     (shouldTerminate (GroupChatManagerState.mk 1 (some 10))
        [userMessage "請開始討論。"] "term" (BooleanResult.mk false "r")).1.length =
      ([userMessage "請開始討論。"] : List ChatMessageContent).length + 2) ∧
    (shouldTerminate (GroupChatManagerState.mk 10 (some 10))
        [userMessage "請開始討論。"] "term" (BooleanResult.mk false "r")).1 =
      [userMessage "請開始討論。"] ∧
    ((selectNextAgent [("Farmer", "d")] [userMessage "請開始討論。"] "sel"
        (StringResult.mk "Farmer" "r")).1 =
      systemMessage "sel" :: [userMessage "請開始討論。"] ++
        [userMessage "Now select the next participant to speak."] ∧
     (selectNextAgent [("Farmer", "d")] [userMessage "請開始討論。"] "sel"
        (StringResult.mk "Farmer" "r")).1.length =
      ([userMessage "請開始討論。"] : List ChatMessageContent).length + 2) ∧
    (filterResults [userMessage "請開始討論。"] "filt" (StringResult.mk "sum" "r") =
      Except.ok (systemMessage "filt" :: [userMessage "請開始討論。"] ++
          [userMessage "Please summarize the discussion."],
        MessageResult.mk
          (ChatMessageContent.mk AuthorRole.assistant none "sum") "r") ∧
     (systemMessage "filt" :: [userMessage "請開始討論。"] ++
        [userMessage "Please summarize the discussion."]).length =
      ([userMessage "請開始討論。"] : List ChatMessageContent).length + 2) := by
  have h1 := manager_decision_mutations (GroupChatManagerState.mk 1 (some 10))
    [userMessage "請開始討論。"] [("Farmer", "d")] "term" "sel" "filt"
    (BooleanResult.mk false "r") (StringResult.mk "Farmer" "r")
    (StringResult.mk "sum" "r")
  have h2 := manager_decision_mutations (GroupChatManagerState.mk 10 (some 10))
    [userMessage "請開始討論。"] [("Farmer", "d")] "term" "sel" "filt"
    (BooleanResult.mk false "r") (StringResult.mk "Farmer" "r")
    (StringResult.mk "sum" "r")
  exact ⟨h1.1 (by decide), h2.2.1 (by decide), h1.2.2.1,
    h1.2.2.2 (List.cons_ne_nil _ _)⟩

/-- `CustomRoundRobinGroupChatManager.should_request_user_input`
(`step3a_group_chat_human_in_the_loop.py`): with an empty history no agent has
spoken yet and the result is false; otherwise the result is true exactly when
the last message's author name is "Reviewer".  (The `none` arm below is
unreachable: a history of non-zero length has a last message.) -/
def shouldRequestUserInput (chatHistory : List ChatMessageContent) :
    BooleanResult :=
  if chatHistory.length = 0 then
    BooleanResult.mk false "尚無代理程式發言。"
  else
    match chatHistory.getLast? with
    | some lastMessage =>
        if lastMessage.name = some "Reviewer" then
          BooleanResult.mk true "在審查員訊息後需要使用者輸入。"
        else
          BooleanResult.mk false "如果最後一個訊息不是來自審查員，則不需要使用者輸入。"
    | none => BooleanResult.mk false "尚無代理程式發言。"

/-- C10: `should_request_user_input` answers true exactly when the history is
non-empty and its last message is named "Reviewer"; on an empty history it
answers false (and, being a total function, it never raises). -/
theorem reviewer_triggers_user_input (chatHistory : List ChatMessageContent) :
    ((shouldRequestUserInput chatHistory).result = true ↔
      ∃ lastMessage, chatHistory.getLast? = some lastMessage ∧
        lastMessage.name = some "Reviewer") ∧
    shouldRequestUserInput [] = BooleanResult.mk false "尚無代理程式發言。" := by
  refine ⟨?_, rfl⟩
  cases chatHistory with
  | nil => simp [shouldRequestUserInput]
  | cons a as =>
      have hne : (a :: as : List ChatMessageContent) ≠ [] := List.cons_ne_nil a as
      obtain ⟨m, hm⟩ := Option.isSome_iff_exists.mp (List.getLast?_isSome.mpr hne)
      by_cases hname : m.name = some "Reviewer"
      · simp [shouldRequestUserInput, hm, hname]
      · simp [shouldRequestUserInput, hm, hname]
